import Mathlib

/-!
Verification development for the unpyc3 decompiler (src/unpyc3.py).

The definitions below are a shallow embedding of the parts of unpyc3 that
the verified claims are about: the bytecode decoder (code_walker), the
Code/Address instruction-stream model, the analyzer passes find_else and
find_jumps.proc_chained, the operand Stack, the expression AST with its
precedence-directed renderer, the pending-branch (popjump) stack with its
boolean-folding merge, and the relevant SuiteDecompiler opcode handlers.

Conventions used throughout:
  * machine integers are Nat/Int (Python ints are unbounded);
  * Python exceptions (IndexError, KeyError, AttributeError, the explicit
    raise in Stack.pop1) are modelled with Except String / Option;
  * Python lists indexed from the end are kept in the same orientation as
    the source (append at the end, pop from the end) unless noted;
  * opcode numbers are the CPython 3.6/3.7 opmap values, the bytecode
    generation unpyc3 targets (it handles SETUP_LOOP etc., removed in 3.8).
-/

namespace Unpyc

/- Opcode constants (CPython 3.6/3.7 opcode.opmap), as pulled into the
module namespace by `for name, val in opmap.items()`. -/

def POP_TOP : Nat := 1
def ROT_TWO : Nat := 2
def ROT_THREE : Nat := 3
def DUP_TOP : Nat := 4
def UNARY_NOT : Nat := 12
def GET_ITER : Nat := 68
def RETURN_VALUE : Nat := 83
def END_FINALLY : Nat := 88
def HAVE_ARGUMENT : Nat := 90
def FOR_ITER : Nat := 93
def LOAD_CONST : Nat := 100
def LOAD_NAME : Nat := 101
def COMPARE_OP : Nat := 107
def JUMP_FORWARD : Nat := 110
def JUMP_IF_FALSE_OR_POP : Nat := 111
def JUMP_IF_TRUE_OR_POP : Nat := 112
def JUMP_ABSOLUTE : Nat := 113
def POP_JUMP_IF_FALSE : Nat := 114
def POP_JUMP_IF_TRUE : Nat := 115
def CONTINUE_LOOP : Nat := 119
def SETUP_LOOP : Nat := 120
def SETUP_EXCEPT : Nat := 121
def SETUP_FINALLY : Nat := 122
def RAISE_VARARGS : Nat := 130
def SETUP_WITH : Nat := 143
def EXTENDED_ARG : Nat := 144
def STORE_NAME : Nat := 90

/- `cmp_op` from the opcode module (indexing used by COMPARE_OP). -/
def cmp_op : List String :=
  ["<", "<=", "==", "!=", ">", ">=", "in", "not in", "is", "is not",
   "exception match", "BAD"]

/- pop_jump_if_opcodes = (POP_JUMP_IF_TRUE, POP_JUMP_IF_FALSE) -/
def pop_jump_if_opcodes : List Nat := [POP_JUMP_IF_TRUE, POP_JUMP_IF_FALSE]

/- else_jump_opcodes: opcodes such that a pop_jump_if_x to the address just
after them is an else-jump. -/
def else_jump_opcodes : List Nat :=
  [JUMP_FORWARD, RETURN_VALUE, JUMP_ABSOLUTE, SETUP_LOOP, RAISE_VARARGS, POP_TOP]

/- for_jump_opcodes (loop-iteration opcodes). -/
def for_jump_opcodes : List Nat := [GET_ITER, FOR_ITER]

/- dis.hasjrel / dis.hasjabs for CPython 3.6/3.7, used by Address.jump. -/
def hasjrel : List Nat :=
  [FOR_ITER, JUMP_FORWARD, SETUP_LOOP, SETUP_EXCEPT, SETUP_FINALLY, SETUP_WITH]
def hasjabs : List Nat :=
  [JUMP_IF_FALSE_OR_POP, JUMP_IF_TRUE_OR_POP, JUMP_ABSOLUTE,
   POP_JUMP_IF_FALSE, POP_JUMP_IF_TRUE, CONTINUE_LOOP]

/-!
## code_walker (decode pass)

`code_walker(code)` yields `(address, (opcode, oparg))` over the raw byte
array.  Two branches in the source: the wordcode branch taken when
`sys.version_info >= (3, 6)`, and the legacy pre-3.6 branch.  Out-of-range
byte reads (IndexError on the `array`) are modelled as `Except.error`.
-/

/- The inner `while op == EXTENDED_ARG` loop of the >= 3.6 branch:
starting from the op/oparg read at i/i+1 with offset 2, fold widening
prefixes into the operand (`oparg <<= 8; oparg |= code[i+offset+1]`). -/
def foldExt (code : List Nat) (i off op oparg : Nat) :
    Except String (Nat × Nat × Nat) :=
  if op = EXTENDED_ARG then
    if h1 : i + off < code.length then
      if h2 : i + off + 1 < code.length then
        foldExt code i (off + 2) (code.get ⟨i + off, h1⟩)
          ((oparg <<< 8) ||| code.get ⟨i + off + 1, h2⟩)
      else .error "IndexError"
    else .error "IndexError"
  else .ok (op, oparg, off)
termination_by code.length - (i + off)
decreasing_by omega

theorem foldExt_off_le (code : List Nat) :
    ∀ n i off op oparg o a f, code.length - (i + off) ≤ n →
      foldExt code i off op oparg = .ok (o, a, f) → off ≤ f := by
  intro n
  induction n with
  | zero =>
    intro i off op oparg o a f hb h
    rw [foldExt] at h
    split at h
    · split at h
      · split at h
        · omega
        · exact absurd h (by simp)
      · exact absurd h (by simp)
    · simp at h
      omega
  | succ n ih =>
    intro i off op oparg o a f hb h
    rw [foldExt] at h
    split at h
    · split at h
      · split at h
        · have := ih i (off + 2) _ _ o a f (by omega) h
          omega
        · exact absurd h (by simp)
      · exact absurd h (by simp)
    · simp at h
      omega

theorem foldExt_op_ne (code : List Nat) :
    ∀ n i off op oparg o a f, code.length - (i + off) ≤ n →
      foldExt code i off op oparg = .ok (o, a, f) → o ≠ EXTENDED_ARG := by
  intro n
  induction n with
  | zero =>
    intro i off op oparg o a f hb h
    rw [foldExt] at h
    split at h
    · split at h
      · split at h
        · omega
        · exact absurd h (by simp)
      · exact absurd h (by simp)
    · simp at h
      obtain ⟨h1, _⟩ := h
      subst h1
      assumption
  | succ n ih =>
    intro i off op oparg o a f hb h
    rw [foldExt] at h
    split at h
    · split at h
      · split at h
        · exact ih i (off + 2) _ _ o a f (by omega) h
        · exact absurd h (by simp)
      · exact absurd h (by simp)
    · simp at h
      obtain ⟨h1, _⟩ := h
      subst h1
      assumption

/- Outer loop of the >= 3.6 branch of code_walker. -/
def cwGo (code : List Nat) (i : Nat) :
    Except String (List (Nat × Nat × Nat)) :=
  if hl : i < code.length then
    if h1 : i + 1 < code.length then
      match hfe : foldExt code i 2 (code.get ⟨i, hl⟩) (code.get ⟨i + 1, h1⟩) with
      | .error e => .error e
      | .ok (op, oparg, off) =>
        have hoff : 2 ≤ off :=
          foldExt_off_le code (code.length - (i + 2)) i 2 _ _ op oparg off
            (le_refl _) hfe
        match cwGo code (i + off) with
        | .error e => .error e
        | .ok rest => .ok ((i, op, oparg) :: rest)
    else .error "IndexError"
  else .ok []
termination_by code.length - i
decreasing_by omega

/- code_walker, sys.version_info >= (3, 6) branch.  Entries are
(byte address, opcode, operand); EXTENDED_ARG prefixes are folded by
foldExt before the entry is yielded. -/
def codeWalker36 (code : List Nat) : Except String (List (Nat × Nat × Nat)) :=
  cwGo code 0

/- code_walker, pre-3.6 branch.  `ext` and `oparg` persist across
iterations exactly as the source's `extended_arg` / `oparg` locals do. -/
def cwLegacyGo (code : List Nat) (i ext oparg : Nat) :
    Except String (List (Nat × Nat × Nat)) :=
  if hl : i < code.length then
    let op := code.get ⟨i, hl⟩
    if op ≥ HAVE_ARGUMENT then
      if h2 : i + 2 < code.length then
        let oparg2 := code.get ⟨i + 1, by omega⟩ + code.get ⟨i + 2, h2⟩ * 256 + ext
        let ext2 := if op = EXTENDED_ARG then oparg2 * 65536 else 0
        match cwLegacyGo code (i + 3) ext2 oparg2 with
        | .error e => .error e
        | .ok rest => .ok ((i, op, oparg2) :: rest)
      else .error "IndexError"
    else
      let ext2 := if op = EXTENDED_ARG then oparg * 65536 else ext
      match cwLegacyGo code (i + 1) ext2 oparg with
      | .error e => .error e
      | .ok rest => .ok ((i, op, oparg) :: rest)
  else .ok []
termination_by code.length - i
decreasing_by
  · omega
  · omega

def codeWalkerLegacy (code : List Nat) : Except String (List (Nat × Nat × Nat)) :=
  cwLegacyGo code 0 0 0

/-!
## Expression AST and renderer

The expression node classes of unpyc3 relevant to the claims, with their
class-level `precedence` and `pattern` attributes and their `__str__`
methods.  The unary and binary operator subclasses are generated in the
source from the `unary_ops` / `binary_ops` tables; they are represented
here by a kind tag carrying the table's pattern and precedence.
`PyCompare.complist` is the alternating list `[e0, op1, e1, op2, e2, ...]`;
it is represented as the head expression plus an alternating tail
(`CompRest`), which is the same data.
-/

inductive UnaryKind where
  | positive | negative | unot | invert
deriving DecidableEq, Repr

inductive BinKind where
  | power | multiply | floorDivide | trueDivide | modulo | add | subtract
  | subscript | lshift | rshift | bitAnd | bitXor | bitOr | matmul
deriving DecidableEq, Repr

/- precedence column of unary_ops. -/
def UnaryKind.prec : UnaryKind → Nat
  | .positive => 13
  | .negative => 13
  | .unot => 5
  | .invert => 13

/- pattern column of unary_ops: "+{0}", "-{0}", "not {0}", "~{0}"
(each is a prefix applied to the operand string). -/
def UnaryKind.pat : UnaryKind → String
  | .positive => "+"
  | .negative => "-"
  | .unot => "not "
  | .invert => "~"

/- precedence column of binary_ops (PySubscript is declared directly in
the source with precedence 15). -/
def BinKind.prec : BinKind → Nat
  | .power => 14
  | .multiply => 12
  | .floorDivide => 12
  | .trueDivide => 12
  | .modulo => 12
  | .add => 11
  | .subtract => 11
  | .subscript => 15
  | .lshift => 10
  | .rshift => 10
  | .bitAnd => 9
  | .bitXor => 8
  | .bitOr => 7
  | .matmul => 12

/- pattern column of binary_ops, applied to the two operand strings. -/
def BinKind.fmt : BinKind → String → String → String
  | .power, l, r => l ++ "**" ++ r
  | .multiply, l, r => l ++ "*" ++ r
  | .floorDivide, l, r => l ++ "//" ++ r
  | .trueDivide, l, r => l ++ "/" ++ r
  | .modulo, l, r => l ++ " % " ++ r
  | .add, l, r => l ++ " + " ++ r
  | .subtract, l, r => l ++ " - " ++ r
  | .subscript, l, r => l ++ "[" ++ r ++ "]"
  | .lshift, l, r => l ++ " << " ++ r
  | .rshift, l, r => l ++ " >> " ++ r
  | .bitAnd, l, r => l ++ " & " ++ r
  | .bitXor, l, r => l ++ " ^ " ++ r
  | .bitOr, l, r => l ++ " | " ++ r
  | .matmul, l, r => l ++ " @ " ++ r

mutual
inductive PyExpr where
  /- PyName; `isAwaited` is the AwaitableMixin flag (False on creation). -/
  | pyName (isAwaited : Bool) (name : String)
  /- PyConst restricted to int values (precedence 14, str = repr(val)). -/
  | pyConstInt (val : Int)
  | unary (k : UnaryKind) (operand : PyExpr)
  | binary (k : BinKind) (left right : PyExpr)
  | booleanAnd (left right : PyExpr) (allowCollision : Bool)
  | booleanOr (left right : PyExpr) (allowCollision : Bool)
  | compare (first : PyExpr) (rest : CompRest)
  | ifElse (cond trueExpr falseExpr : PyExpr)
deriving DecidableEq, Repr
inductive CompRest where
  | nil
  | cons (op : String) (e : PyExpr) (rest : CompRest)
deriving DecidableEq, Repr
end

instance : Inhabited PyExpr := ⟨.pyConstInt 0⟩

/- Class-level precedence attribute of each node. -/
def PyExpr.prec : PyExpr → Nat
  | .pyName _ _ => 100
  | .pyConstInt _ => 14
  | .unary k _ => k.prec
  | .binary k _ _ => k.prec
  | .booleanAnd _ _ _ => 4
  | .booleanOr _ _ _ => 3
  | .compare _ _ => 6
  | .ifElse _ _ _ => 2

mutual
/- `__str__` of the expression nodes.  Parenthesization decisions are the
source's: PyUnaryOp wraps its operand on `operand.precedence < self.precedence`;
PyBinaryOp wraps left on `<` and right on `<=` (PySubscript overrides
wrap_right to plain str); PyCompare wraps every comparand on
`precedence <= 6`; PyIfElse wraps cond and true_expr on `<= 2` and
false_expr on `< 2`. -/
def PyExpr.pstr : PyExpr → String
  | .pyName aw n => (if aw then "await " else "") ++ n
  | .pyConstInt v => toString v
  | .unary k o =>
      k.pat ++ (if o.prec < k.prec then "(" ++ o.pstr ++ ")" else o.pstr)
  | .binary k l r =>
      k.fmt (if l.prec < k.prec then "(" ++ l.pstr ++ ")" else l.pstr)
        (match k with
         | .subscript => r.pstr
         | _ => if r.prec ≤ k.prec then "(" ++ r.pstr ++ ")" else r.pstr)
  | .booleanAnd l r _ =>
      (if l.prec < 4 then "(" ++ l.pstr ++ ")" else l.pstr) ++ " and " ++
        (if r.prec ≤ 4 then "(" ++ r.pstr ++ ")" else r.pstr)
  | .booleanOr l r _ =>
      (if l.prec < 3 then "(" ++ l.pstr ++ ")" else l.pstr) ++ " or " ++
        (if r.prec ≤ 3 then "(" ++ r.pstr ++ ")" else r.pstr)
  | .compare f rest =>
      (if f.prec ≤ 6 then "(" ++ f.pstr ++ ")" else f.pstr) ++ rest.pstr
  | .ifElse c t f =>
      (if t.prec ≤ 2 then "(" ++ t.pstr ++ ")" else t.pstr) ++ " if " ++
        (if c.prec ≤ 2 then "(" ++ c.pstr ++ ")" else c.pstr) ++ " else " ++
        (if f.prec < 2 then "(" ++ f.pstr ++ ")" else f.pstr)
/- tail of PyCompare.__str__'s " ".join: each operator string and wrapped
comparand, each preceded by the joining space. -/
def CompRest.pstr : CompRest → String
  | .nil => ""
  | .cons op e rest =>
      " " ++ op ++ " " ++ (if e.prec ≤ 6 then "(" ++ e.pstr ++ ")" else e.pstr)
        ++ rest.pstr
end

/- PyExpr.wrap. -/
def PyExpr.wrap (e : PyExpr) (condition : Bool) : String :=
  if condition then "(" ++ e.pstr ++ ")" else e.pstr

/- isinstance(o, PyNot). -/
def PyExpr.isNot : PyExpr → Bool
  | .unary .unot _ => true
  | _ => false

/- `isinstance(o, PyCompare) and o.complist[1].startswith('is')`.
PyCompare nodes built by COMPARE_OP always carry at least one operator,
so complist[1] exists on every modelled path (the nil case would be an
IndexError in the source). -/
def PyExpr.compIsOp : PyExpr → Bool
  | .compare _ (.cons op _ _) => op.startsWith "is"
  | _ => false

/- The allow_collision default computed by PyBooleanAnd.__init__ /
PyBooleanOr.__init__ when the third argument is None (both classes have
the identical computation). -/
def autoCollision (l r : PyExpr) : Bool :=
  if l.isNot then !(r.compIsOp)
  else if r.isNot then !(l.compIsOp)
  else false

/- PyBooleanAnd(left, right) with the allow_collision default. -/
def mkBooleanAnd (l r : PyExpr) : PyExpr := .booleanAnd l r (autoCollision l r)

/- PyBooleanOr(left, right) with the allow_collision default. -/
def mkBooleanOr (l r : PyExpr) : PyExpr := .booleanOr l r (autoCollision l r)

/- SPyNot: push negation inside, normalising not(not x) and flipping
collision-allowed and/or nodes by De Morgan; otherwise wrap in PyNot. -/
def SPyNot : PyExpr → PyExpr
  | .unary .unot o => o
  | .booleanAnd l r true => .booleanOr (SPyNot l) (SPyNot r) true
  | .booleanOr l r true => .booleanAnd (SPyNot l) (SPyNot r) true
  | o => .unary .unot o

def CompRest.append : CompRest → CompRest → CompRest
  | .nil, other => other
  | .cons op e rest, other => .cons op e (rest.append other)

/- PyCompare.chain: PyCompare(self.complist + other.complist[1:]).  Both
arguments are PyCompare nodes at every call site (otherwise the attribute
access would be an AttributeError, modelled as none). -/
def PyExpr.chain : PyExpr → PyExpr → Option PyExpr
  | .compare f1 r1, .compare _ r2 => some (.compare f1 (r1.append r2))
  | _, _ => none

/-!
## The operand Stack

`Stack` keeps a value list `_stack` (append/pop at the end, as the Python
list does) and an identity-count dict `_counts` keyed by `id(obj)`.
Values are represented by their ids (`Nat`): the class only ever consults
`id(obj)`, equality of ids, and the values themselves as opaque payloads.
The dict is an association list with unique keys; `dictGet` is
`self._counts.get(key, 0)`.
-/

def alLookup {α : Type} (d : List (Nat × α)) (k : Nat) : Option α :=
  match d with
  | [] => none
  | (k0, v0) :: rest => if k0 = k then some v0 else alLookup rest k

def alPut {α : Type} (d : List (Nat × α)) (k : Nat) (v : α) : List (Nat × α) :=
  match d with
  | [] => [(k, v)]
  | (k0, v0) :: rest => if k0 = k then (k, v) :: rest else (k0, v0) :: alPut rest k v

def alDel {α : Type} (d : List (Nat × α)) (k : Nat) : List (Nat × α) :=
  d.filter (fun p => p.1 ≠ k)

def dictGet (d : List (Nat × Int)) (k : Nat) : Int :=
  match alLookup d k with
  | some v => v
  | none => 0

structure Stack where
  _stack : List Nat
  _counts : List (Nat × Int)
deriving DecidableEq, Repr

def Stack.empty : Stack := ⟨[], []⟩

def Stack.getCount (s : Stack) (obj : Nat) : Int := dictGet s._counts obj

/- set_count: store the count, or `del` the key when the count is falsy
(0).  The source's `del` would raise KeyError on an absent key; set_count
is only ever called with val = 0 when the key is present (the count was
1), so plain removal is faithful. -/
def Stack.setCount (s : Stack) (obj : Nat) (val : Int) : Stack :=
  if val ≠ 0 then { s with _counts := alPut s._counts obj val }
  else { s with _counts := alDel s._counts obj }

/- __contains__: get_count(val) > 0. -/
def Stack.contains (s : Stack) (v : Nat) : Bool := 0 < s.getCount v

/- __len__. -/
def Stack.len (s : Stack) : Nat := s._stack.length

/- __bool__. -/
def Stack.toBool (s : Stack) : Bool := !s._stack.isEmpty

/- One iteration of push's loop body. -/
def Stack.push1 (s : Stack) (v : Nat) : Stack :=
  let s1 := s.setCount v (s.getCount v + 1)
  { s1 with _stack := s1._stack ++ [v] }

/- push(*args). -/
def Stack.push (s : Stack) (args : List Nat) : Stack := args.foldl Stack.push1 s

/- pop1: raises on an empty stack, else pops the last element and
decrements its count. -/
def Stack.pop1 (s : Stack) : Except String (Nat × Stack) :=
  if h : s._stack = [] then .error "Empty stack popped!"
  else
    let val := s._stack.getLast h
    let s1 : Stack := { s with _stack := s._stack.dropLast }
    .ok (val, s1.setCount val (s1.getCount val - 1))

/- the list comprehension `[self.pop1() for i in range(count)]`. -/
def Stack.popList : Stack → Nat → Except String (List Nat × Stack)
  | s, 0 => .ok ([], s)
  | s, n + 1 =>
    match s.pop1 with
    | .error e => .error e
    | .ok (v, s1) =>
      match s1.popList n with
      | .error e => .error e
      | .ok (vs, s2) => .ok (v :: vs, s2)

/- pop(count): pop count values and reverse them. -/
def Stack.popN (s : Stack) (n : Nat) : Except String (List Nat × Stack) :=
  match s.popList n with
  | .error e => .error e
  | .ok (vs, s2) => .ok (vs.reverse, s2)

/- peek(): `self._stack[-1]` (IndexError on empty). -/
def Stack.peek1 (s : Stack) : Except String Nat :=
  match s._stack.getLast? with
  | some v => .ok v
  | none => .error "IndexError"

/- peek(count): `self._stack[-count:]` (for count = 0 the slice is the
whole list). -/
def Stack.peekN (s : Stack) (n : Nat) : List Nat :=
  if n = 0 then s._stack else s._stack.drop (s._stack.length - n)

/- The identity-count invariant: the recorded count of every id equals its
number of occurrences in the value list. -/
def Stack.inv (s : Stack) : Prop :=
  ∀ x, s.getCount x = (s._stack.count x : Int)

/-!
## Code and Address

A Code here carries the decoded instruction sequence
`instr_seq = list(code_walker(co_code))`, entries `(byte address, opcode,
arg)`.  `instr_map` maps byte addresses back to indices (byte addresses in
a walker output are strictly increasing, hence unique, so first-match
lookup is dict lookup).
-/

structure Code where
  instr_seq : List (Nat × Nat × Nat)
deriving DecidableEq, Repr

structure Address where
  code : Code
  index : Nat
deriving DecidableEq, Repr

/- Code.__getitem__: an Address for 0 <= instr_index < len(instr_seq),
None otherwise (the Python function falls off the end and returns None). -/
def Code.getitem (c : Code) (i : Int) : Option Address :=
  if 0 ≤ i ∧ i < (c.instr_seq.length : Int) then some ⟨c, i.toNat⟩ else none

/- Address.__init__ reads `code.instr_seq[instr_index]`; every Address
constructed through Code.__getitem__ has index < length, so the default
entry is never read. -/
def Address.entry (a : Address) : Nat × Nat × Nat :=
  a.code.instr_seq.getD a.index (0, 0, 0)

def Address.addr (a : Address) : Nat := a.entry.1
def Address.opcode (a : Address) : Nat := a.entry.2.1
def Address.arg (a : Address) : Nat := a.entry.2.2

/- Address.__getitem__: `self.code[self.index + index]`. -/
def Address.getitem (a : Address) (d : Int) : Option Address :=
  a.code.getitem ((a.index : Int) + d)

/- instr_map lookup followed by Code.__getitem__, i.e. Code.address;
a byte address that is not an instruction start is a KeyError.  The looked
up index is < len(instr_seq), so Code.__getitem__ returns the Address. -/
def Code.addressB (c : Code) (b : Nat) : Except String Address :=
  match c.instr_seq.findIdx? (fun e => e.1 = b) with
  | some i => .ok ⟨c, i⟩
  | none => .error "KeyError"

/- Address.jump: for relative jumps `self[1] + self.arg` (Address.__add__
is `self.code.address(self.addr + delta)`, so the target byte is the next
instruction's byte address plus arg; `None + arg` would be a TypeError);
for absolute jumps `self.code.address(self.arg)`; None otherwise. -/
def Address.jumpE (a : Address) : Except String (Option Address) :=
  if a.opcode ∈ hasjrel then
    match a.getitem 1 with
    | some a1 => (a.code.addressB (a1.addr + a.arg)).map some
    | none => .error "TypeError"
  else if a.opcode ∈ hasjabs then (a.code.addressB a.arg).map some
  else .ok none

/-!
## Code.find_else

Builds `jumps` (a dict keyed by Address; all Addresses live in one Code,
so keys and values are represented by instruction indices), then
`else_jumps = set(jumps.values())`.  Python evaluation order is kept:
`self.address(arg)` may raise KeyError; `jump_addr[-1].opcode` raises
AttributeError when the jump target is instruction 0 (jump_addr[-1] is
None); `addr[1] + arg` on a trailing JUMP_FORWARD raises TypeError.
-/

def findElseStep (c : Code) (jumps : List (Nat × Nat)) (i : Nat) :
    Except String (List (Nat × Nat)) :=
  let a : Address := ⟨c, i⟩
  if a.opcode ∈ pop_jump_if_opcodes then
    match c.addressB a.arg with
    | .error e => .error e
    | .ok ja =>
      match ja.getitem (-1) with
      | none => .error "AttributeError"
      | some jp =>
        if jp.opcode ∈ else_jump_opcodes ∨ ja.opcode = FOR_ITER then
          .ok (alPut jumps ja.index i)
        else .ok jumps
  else if a.opcode = JUMP_ABSOLUTE then
    match c.addressB a.arg with
    | .error e => .error e
    | .ok ja =>
      match alLookup jumps ja.index with
      | some v => .ok (alPut jumps i v)
      | none => .ok jumps
  else if a.opcode = JUMP_FORWARD then
    match a.getitem 1 with
    | none => .error "TypeError"
    | some a1 =>
      match c.addressB (a1.addr + a.arg) with
      | .error e => .error e
      | .ok ja =>
        match alLookup jumps ja.index with
        | some v => .ok (alPut jumps i v)
        | none => .ok jumps
  else .ok jumps

def findElseGo (c : Code) (i : Nat) (jumps : List (Nat × Nat)) :
    Except String (List (Nat × Nat)) :=
  if i < c.instr_seq.length then
    match findElseStep c jumps i with
    | .error e => .error e
    | .ok j2 => findElseGo c (i + 1) j2
  else .ok jumps
termination_by c.instr_seq.length - i
decreasing_by omega

/- find_else; the result list's membership is the membership of
`set(jumps.values())`. -/
def findElse (c : Code) : Except String (List Nat) :=
  match findElseGo c 0 [] with
  | .error e => .error e
  | .ok jf => .ok (jf.map Prod.snd)

/-!
## SuiteDecompiler.push_popjump / pop_popjump

The pending-branch stack.  All addresses live in the one Code being
decompiled, so an entry keeps the indices of its jump-target Address and
of its original branch Address, plus that branch's opcode (the only
attributes push_popjump reads from `original_jaddr`).  The Lean list keeps
the top of the Python list (its last element) at the head.
-/

structure PJEntry where
  truthiness : Bool
  addrIdx : Nat
  cond : PyExpr
  origIdx : Nat
  origOpcode : Nat
deriving DecidableEq, Repr

inductive ObjMaker where
  | mand | mor
deriving DecidableEq, Repr

/- obj_maker(left, right, allow_collision). -/
def ObjMaker.make : ObjMaker → PyExpr → PyExpr → Bool → PyExpr
  | .mand, l, r, ac => .booleanAnd l r ac
  | .mor, l, r, ac => .booleanOr l r ac

/- Lines 2268-2273: `if isinstance(jcond, obj_maker)`, use associativity of
and/or to flatten the same-operator clause instead of nesting it as the
right operand. -/
def mergeCond (om : ObjMaker) (cond jcond : PyExpr) (ac : Bool) : PyExpr :=
  match om, jcond with
  | .mand, .booleanAnd jl jr _ => .booleanAnd (.booleanAnd cond jl ac) jr ac
  | .mor, .booleanOr jl jr _ => .booleanOr (.booleanOr cond jl ac) jr ac
  | _, _ => om.make cond jcond ac

/- The `jaddr == addr` arm of push_popjump's while loop (lines 2215-2236).
Result: (obj_maker, cond, jcond, jtruthiness, allow_collision). -/
def ppjCaseSameTarget (t jt : Bool) (cond jcond : PyExpr) :
    ObjMaker × PyExpr × PyExpr × Bool × Bool :=
  if t ∧ jt then (.mor, cond, jcond, jt, false)
  else if t ∧ !jt then
    if cond.compIsOp then (.mor, cond, SPyNot jcond, true, false)
    else (.mand, SPyNot cond, jcond, jt, true)
  else if !t ∧ jt then
    if jcond.compIsOp then (.mor, SPyNot cond, jcond, jt, false)
    else (.mand, cond, SPyNot jcond, false, true)
  else (.mand, cond, jcond, jt, false)

/- The `addr == next_addr` arm (lines 2239-2261). -/
def ppjCaseFallthrough (origOpcode : Nat) (t jt : Bool) (cond jcond : PyExpr) :
    ObjMaker × PyExpr × PyExpr × Bool × Bool :=
  if t ∧ jt then
    if jcond.compIsOp ∨ origOpcode = JUMP_IF_TRUE_OR_POP then
      (.mand, SPyNot cond, jcond, jt, false)
    else (.mor, cond, SPyNot jcond, false, true)
  else if t ∧ !jt then (.mor, cond, jcond, jt, false)
  else if !t ∧ jt then (.mand, cond, jcond, jt, false)
  else
    if cond.compIsOp then (.mand, cond, SPyNot jcond, true, false)
    else (.mor, SPyNot cond, jcond, jt, true)

/- The while loop of push_popjump: repeatedly merge the stack top into
jcond while its target matches jaddr or next_addr, stopping (break) at the
first non-matching entry.  Returns the remaining stack and the final
(jtruthiness, jcond). -/
def ppjLoop (nextAddr : Option Nat) (origOpcode : Nat) (jaddr : Nat) :
    List PJEntry → Bool → PyExpr → List PJEntry × Bool × PyExpr
  | [], jt, jcond => ([], jt, jcond)
  | e :: rest, jt, jcond =>
    if jaddr = e.addrIdx then
      let r := ppjCaseSameTarget e.truthiness jt e.cond jcond
      ppjLoop nextAddr origOpcode jaddr rest r.2.2.2.1
        (mergeCond r.1 r.2.1 r.2.2.1 r.2.2.2.2)
    else if nextAddr = some e.addrIdx then
      let r := ppjCaseFallthrough origOpcode e.truthiness jt e.cond jcond
      ppjLoop nextAddr origOpcode jaddr rest r.2.2.2.1
        (mergeCond r.1 r.2.1 r.2.2.1 r.2.2.2.2)
    else (e :: rest, jt, jcond)

/- push_popjump(jtruthiness, jaddr, jcond, original_jaddr).  `codeLen`
bounds Code.__getitem__ for the original_jaddr[k] neighbour lookups (None
past the end); `endChained` is code.end_chained_jumps as indices. -/
def pushPopjump (codeLen : Nat) (endChained : List Nat) (stack : List PJEntry)
    (jt : Bool) (jaddr : Nat) (jcond : PyExpr) (origIdx origOpcode : Nat) :
    List PJEntry :=
  let idxOpt : Nat → Option Nat := fun j => if j < codeLen then some j else none
  let nextAddr : Option Nat :=
    if origIdx ∈ endChained then
      if jt then idxOpt (origIdx + 3) else idxOpt (origIdx + 4)
    else idxOpt (origIdx + 1)
  let r := ppjLoop nextAddr origOpcode jaddr stack jt jcond
  let jtF := if origOpcode = JUMP_IF_TRUE_OR_POP then !r.2.1 else r.2.1
  ⟨jtF, jaddr, r.2.2, origIdx, origOpcode⟩ :: r.1

/- pop_popjump: raises on an empty stack; negates the condition of a
truthy entry via SPyNot. -/
def popPopjump (stack : List PJEntry) :
    Except String (PyExpr × List PJEntry) :=
  match stack with
  | [] => .error "Attempted to pop an empty popjump stack."
  | e :: rest => .ok (if e.truthiness then SPyNot e.cond else e.cond, rest)

/-!
## Code.find_jumps.proc_chained

Classifies the branches of a chained comparison: the branch preceded by
the DUP_TOP / ROT_THREE / COMPARE_OP triplet starts a chain; subsequent
branches with the same triplet and the same target are inner; the branch
whose second successor is the start's jump target ends the chain.
The state carries the four accumulator lists (as instruction indices):
start_chained_jumps, inner_chained_jumps, end_chained_jumps,
ternaryop_jumps.  A `None.attribute` access raises (AttributeError),
`Code.address` on a bad byte raises (KeyError); `fuel` bounds the while
loop and the recursion (both advance through the instruction list, so any
fuel past the code length is enough for the runs proved below).
-/

structure ChainLists where
  startCJ : List Nat
  innerCJ : List Nat
  endCJ : List Nat
  ternCJ : List Nat
deriving DecidableEq, Repr

mutual
def procChained (c : Code) (st : ChainLists) (addrIdx : Nat) :
    Nat → Except String (ChainLists × Nat)
  | 0 => .error "fuel"
  | fuel + 1 =>
    let a : Address := ⟨c, addrIdx⟩
    match a.getitem (-3) with
    | none => .ok (st, addrIdx)
    | some a3 =>
      -- a[-1] and a[-2] exist whenever a[-3] does
      match a.getitem (-1), a.getitem (-2) with
      | some a1, some a2 =>
        if a1.opcode = COMPARE_OP ∧ a2.opcode = ROT_THREE ∧ a3.opcode = DUP_TOP then
          procChainedLoop c { st with startCJ := st.startCJ ++ [addrIdx] }
            addrIdx (a.getitem 1) fuel
        else .ok (st, addrIdx)
      | _, _ => .error "AttributeError"
def procChainedLoop (c : Code) (st : ChainLists) (addrIdx : Nat)
    (cur : Option Address) : Nat → Except String (ChainLists × Nat)
  | 0 => .error "fuel"
  | fuel + 1 =>
    match cur with
    | none => .error "AttributeError"
    | some ca =>
      if ca.opcode ∈ pop_jump_if_opcodes then
        match ca.getitem (-3) with
        | none => .error "AttributeError"
        | some c3 =>
          if c3.opcode = DUP_TOP then
            match ca.getitem (-2) with
            | none => .error "AttributeError"
            | some c2 =>
              if c2.opcode = ROT_THREE then
                if ca.arg = (Address.mk c addrIdx).arg then
                  procChainedLoop c { st with innerCJ := st.innerCJ ++ [ca.index] }
                    ca.index (ca.getitem 1) fuel
                else procChainedLoop c st addrIdx (ca.getitem 1) fuel
              else
                procChainedElse c st addrIdx ca fuel
          else
            procChainedElse c st addrIdx ca fuel
      else procChainedLoop c st addrIdx (ca.getitem 1) fuel
def procChainedElse (c : Code) (st : ChainLists) (addrIdx : Nat)
    (ca : Address) : Nat → Except String (ChainLists × Nat)
  | 0 => .error "fuel"
  | fuel + 1 =>
    -- the `elif curaddr[2] == addr.jump()` / `else` arms
    match (Address.mk c addrIdx).jumpE with
    | .error e => .error e
    | .ok aj =>
      if ca.getitem 2 = aj then
        .ok ({ st with endCJ := st.endCJ ++ [ca.index] }, ca.index)
      else
        match procChained c st ca.index fuel with
        | .error e => .error e
        | .ok (st2, ci) =>
          let ca2 : Address := ⟨c, ci⟩
          match ca2.jumpE with
          | .error e => .error e
          | .ok none => .error "TypeError"
          | .ok (some cj) =>
            match cj.getitem (-1) with
            | none => .error "AttributeError"
            | some cjp =>
              let st3 :=
                if cjp.opcode = JUMP_FORWARD then
                  { st2 with ternCJ := st2.ternCJ ++ [ci] }
                else st2
              procChainedLoop c st3 addrIdx (ca2.getitem 1) fuel
end

/-!
## Statements, Suite and the indent renderer

`IndentString` appends one indented line per `write`; `indent + 1` shares
the lines list with one more level, so display is modelled by threading
the lines list through the statement tree.  The statement nodes needed by
the claims: SimpleStatement and IfStatement.  An IfStatement's false
suite is None or a Suite; `if not self.false_suite: return` treats None
and an empty Suite identically, so the model uses the empty list for
both.
-/

def spaces (n : Nat) : String := String.mk (List.replicate n ' ')

inductive Stmt where
  | simple (val : String)
  | ifStmt (cond : PyExpr) (trueSuite : List Stmt) (falseSuite : List Stmt)
deriving Repr

mutual
/- PyStatement.display for the modelled nodes; `isElif` is IfStatement's
is_elif parameter. -/
def Stmt.display (level step : Nat) (lines : List String) (isElif : Bool) :
    Stmt → List String
  | .simple v => lines ++ [spaces (step * level) ++ v]
  | .ifStmt c ts fs =>
    let l1 := lines ++
      [spaces (step * level) ++ (if isElif then "elif " else "if ") ++ c.pstr ++ ":"]
    let l2 := Suite.displayS (level + 1) step l1 ts
    match fs with
    | [] => l2
    | [Stmt.ifStmt c2 ts2 fs2] =>
        Stmt.display level step l2 true (.ifStmt c2 ts2 fs2)
    | f1 :: frest =>
        Suite.displayS (level + 1) step
          (l2 ++ [spaces (step * level) ++ "else:"]) (f1 :: frest)
termination_by s => (sizeOf s, 0)
/- Suite.display: each statement at the current level, or the single
placeholder `pass` when the statement list is empty. -/
def Suite.displayS (level step : Nat) (lines : List String)
    (stmts : List Stmt) : List String :=
  match stmts with
  | [] => lines ++ [spaces (step * level) ++ "pass"]
  | s1 :: srest => SuiteBody.display level step lines (s1 :: srest)
termination_by (sizeOf stmts, 1)
/- the `for stmt in self.statements: stmt.display(indent)` loop. -/
def SuiteBody.display (level step : Nat) (lines : List String) :
    List Stmt → List String
  | [] => lines
  | s :: rest =>
      SuiteBody.display level step (Stmt.display level step lines false s) rest
termination_by l => (sizeOf l, 0)
end

/-!
## SuiteDecompiler fragments used by the executor claims

A `DecFrag` is the observable part of a SuiteDecompiler on the modelled
paths: the operand stack's value list (top at the end, as in Stack) and
the output suite.  The identity-count bookkeeping of Stack is not
consulted by any handler modelled here (none of them reads `in` or
get_count), and is verified separately on Stack itself.
-/

/- Stack.pop1 at the value level: raise on empty, else pop the last. -/
def vpop (st : List PyExpr) : Except String (PyExpr × List PyExpr) :=
  if h : st = [] then .error "Empty stack popped!"
  else .ok (st.getLast h, st.dropLast)

def vpush (st : List PyExpr) (v : PyExpr) : List PyExpr := st ++ [v]

structure DecFrag where
  vstack : List PyExpr
  suite : List Stmt
deriving Repr

/- SuiteDecompiler.POP_TOP: on an empty stack append the diagnostic
statement and return; otherwise `self.stack.pop().on_pop(self)`, which for
an expression is `dec.write(str(self))`, appending a SimpleStatement. -/
def popTopHandler (d : DecFrag) : DecFrag :=
  if h : d.vstack = [] then
    { d with suite := d.suite ++
        [.simple "\"\"\"unpyc3: decompilation error POP_TOP while empty stack\"\"\""] }
  else
    { vstack := d.vstack.dropLast,
      suite := d.suite ++ [.simple (d.vstack.getLast h).pstr] }

/- SuiteDecompiler.PRINT_EXPR: `expr = self.stack.pop()` with no emptiness
guard, then `self.write(str(expr))`; an underflow propagates. -/
def printExprHandler (d : DecFrag) : Except String DecFrag :=
  match vpop d.vstack with
  | .error e => .error e
  | .ok (v, rest) => .ok { vstack := rest, suite := d.suite ++ [.simple v.pstr] }

/- SuiteDecompiler.DUP_TOP: `self.stack.push(self.stack.peek())`
(peek of an empty stack is an IndexError). -/
def dupTopEff (st : List PyExpr) : Except String (List PyExpr) :=
  match st.getLast? with
  | none => .error "IndexError"
  | some v => .ok (st ++ [v])

/- The rotation at the end of SuiteDecompiler.ROT_THREE
(`tos2, tos1, tos = self.stack.pop(3); self.stack.push(tos, tos2, tos1)`).
In the chained-comparison context (DUP_TOP before, COMPARE_OP plus a
branch after) the surrounding guard skips the unpacking special case and
this rotation is exactly what executes. -/
def rotThreeEff (st : List PyExpr) : Except String (List PyExpr) :=
  match vpop st with
  | .error e => .error e
  | .ok (tos, st1) =>
    match vpop st1 with
    | .error e => .error e
    | .ok (tos1, st2) =>
      match vpop st2 with
      | .error e => .error e
      | .ok (tos2, st3) => .ok (st3 ++ [tos, tos2, tos1])

/- SuiteDecompiler.COMPARE_OP for compare_opname != 10:
`left, right = self.stack.pop(2)` then push
PyCompare([left, cmp_op[compare_opname], right]).  compare_opname = 10 is
the exception-match branch, not part of the modelled fragment; an index
past cmp_op would be an IndexError. -/
def compareOpEff (arg : Nat) (st : List PyExpr) : Except String (List PyExpr) :=
  if arg = 10 then .error "exception match: outside the modelled fragment"
  else
    match vpop st with
    | .error e => .error e
    | .ok (right, st1) =>
      match vpop st1 with
      | .error e => .error e
      | .ok (left, st2) =>
        if h : arg < cmp_op.length then
          .ok (st2 ++ [.compare left (.cons (cmp_op.get ⟨arg, h⟩) right .nil)])
        else .error "IndexError"

/- The start-of-chain arm of SuiteDecompiler.POP_JUMP_IF (line 3292):
`cond = self.stack.pop()` then
`self.push_popjump(truthiness, jump_addr, cond, addr)`. -/
def popJumpChainedStart (codeLen : Nat) (endChained : List Nat)
    (pjs : List PJEntry) (truthiness : Bool) (jumpIdx : Nat)
    (vst : List PyExpr) (origIdx origOpcode : Nat) :
    Except String (List PyExpr × List PJEntry) :=
  match vpop vst with
  | .error e => .error e
  | .ok (cond, vst2) =>
      .ok (vst2, pushPopjump codeLen endChained pjs truthiness jumpIdx cond
        origIdx origOpcode)

/- The end-of-chain arm (lines 3300-3302): `cond = self.stack.pop()`,
`c = self.pop_popjump()`, `cond = c.chain(cond)`. -/
def popJumpChainedEnd (pjs : List PJEntry) (vst : List PyExpr) :
    Except String (PyExpr × List PyExpr × List PJEntry) :=
  match vpop vst with
  | .error e => .error e
  | .ok (cond, vst2) =>
    match popPopjump pjs with
    | .error e => .error e
    | .ok (c0, pjs2) =>
      match c0.chain cond with
      | some cond2 => .ok (cond2, vst2, pjs2)
      | none => .error "AttributeError"

/- The full executor value flow over the canonical two-comparison chain
`a OP1 b OP2 c` (LOAD a; LOAD b; DUP_TOP; ROT_THREE; COMPARE_OP c1;
POP_JUMP_IF_FALSE (start of chain, target = the POP_TOP cleanup at index
10); LOAD c; COMPARE_OP c2; POP_JUMP_IF_FALSE (end of chain)).  The LOAD
handlers push the PyName objects from code.names.  The result is the
recovered branch condition produced by the end-of-chain arm. -/
def chainedRecover (a b c : String) (c1 c2 : Nat) : Except String PyExpr :=
  let st2 := vpush (vpush [] (.pyName false a)) (.pyName false b)
  match dupTopEff st2 with
  | .error e => .error e
  | .ok st3 =>
    match rotThreeEff st3 with
    | .error e => .error e
    | .ok st4 =>
      match compareOpEff c1 st4 with
      | .error e => .error e
      | .ok st5 =>
        match popJumpChainedStart 14 [8] [] false 10 st5 5 POP_JUMP_IF_FALSE with
        | .error e => .error e
        | .ok (st6, pjs1) =>
          match compareOpEff c2 (vpush st6 (.pyName false c)) with
          | .error e => .error e
          | .ok st8 =>
            match popJumpChainedEnd pjs1 st8 with
            | .error e => .error e
            | .ok (cond, _, _) => .ok cond

/-!
## SuiteDecompiler.run as a step function (restricted handler set)

One iteration of the run() loop of the ROOT SuiteDecompiler
(`SuiteDecompiler(self[0])`, so end_addr is None: the guard
`addr and addr < self.end_addr` is Address.__lt__ with other = None,
which is True, leaving only `addr` being a valid Address; scan_for_else,
find_end_finally and expression_in_result are all False).  Dispatch is
modelled for the opcodes a run below actually reaches — LOAD_CONST and
JUMP_IF_TRUE_OR_POP — every other dispatch is reported as outside the
fragment.  A handler returning None makes run continue at `addr[1]`.
-/

structure CodeEnv where
  code : Code
  consts : List Int
deriving DecidableEq, Repr

structure ExecSt where
  cursor : Nat
  vstack : List PyExpr
  pjstack : List PJEntry
  suite : List Stmt
deriving Repr

inductive StepRes where
  | cont (st : ExecSt)
  | finished (st : ExecSt)
  | errored (msg : String)
deriving Repr

def c1step (env : CodeEnv) (st : ExecSt) : StepRes :=
  if st.cursor < env.code.instr_seq.length then
    let a : Address := ⟨env.code, st.cursor⟩
    if a.opcode = LOAD_CONST then
      -- LOAD_CONST: const = self.code.consts[consti]; the consts here are
      -- ints, never Ellipsis, so the CONST_LITERALS lookup misses and the
      -- PyConst itself is pushed; the handler returns None, so run
      -- continues at addr[1].
      match env.consts.get? a.arg with
      | none => .errored "IndexError"
      | some v =>
          .cont { st with cursor := st.cursor + 1,
                          vstack := vpush st.vstack (.pyConstInt v) }
    else if a.opcode = JUMP_IF_TRUE_OR_POP then
      -- JUMP_IF_TRUE_OR_POP: end_addr = addr.jump();
      -- push_popjump(True, end_addr, stack.pop(), addr);
      -- left = pop_popjump();
      -- SuiteDecompiler(addr[1], end_addr, self.stack).run();
      -- right = stack.pop(); push(PyBooleanOr(left, right));
      -- return end_addr.
      match a.jumpE with
      | .error e => .errored e
      | .ok none => .errored "unreachable: JUMP_IF_TRUE_OR_POP is in hasjabs"
      | .ok (some ja) =>
        match vpop st.vstack with
        | .error e => .errored e
        | .ok (cond, v2) =>
          -- end_chained_jumps is empty for the codes run below (no
          -- chained comparison), hence the [] context.
          let pj2 := pushPopjump env.code.instr_seq.length [] st.pjstack
            true ja.index cond st.cursor JUMP_IF_TRUE_OR_POP
          match popPopjump pj2 with
          | .error e => .errored e
          | .ok (left, pj3) =>
            if ja.index ≤ st.cursor + 1 then
              -- the child executor's range (addr[1] .. end_addr) is
              -- empty, so its run() loop guard fails at entry and the
              -- child returns with no effect on the shared stack; only
              -- this degenerate range arises below
              match vpop v2 with
              | .error e => .errored e
              | .ok (right, v3) =>
                .cont { st with cursor := ja.index,
                                vstack := vpush v3 (mkBooleanOr left right),
                                pjstack := pj3 }
            else .errored "child executor over a non-empty range: outside the modelled fragment"
    else .errored "opcode handler outside the modelled fragment"
  else .finished st

def c1stepN (env : CodeEnv) : Nat → ExecSt → StepRes
  | 0, st => .cont st
  | n + 1, st =>
    match c1step env st with
    | .cont st2 => c1stepN env n st2
    | r => r

/-!
## Concrete instances and claim-side comparators used by the theorems
-/

instance excDecEq {ε α : Type} [DecidableEq ε] [DecidableEq α] :
    DecidableEq (Except ε α)
  | .error e1, .error e2 =>
    if h : e1 = e2 then .isTrue (by rw [h])
    else .isFalse (fun hh => by cases hh; exact h rfl)
  | .ok a1, .ok a2 =>
    if h : a1 = a2 then .isTrue (by rw [h])
    else .isFalse (fun hh => by cases hh; exact h rfl)
  | .error _, .ok _ => .isFalse (fun hh => by cases hh)
  | .ok _, .error _ => .isFalse (fun hh => by cases hh)

/- The parenthesization rule asserted by the claim —
`wrap(child_precedence < self_precedence)` for both operands of a binary
node — stated from the spec's words for comparison with the
implementation's rendering. -/
def binStrClaimC6 (k : BinKind) (l r : PyExpr) : String :=
  k.fmt (l.wrap (decide (l.prec < k.prec))) (r.wrap (decide (r.prec < k.prec)))

def c6cex : PyExpr :=
  .binary .subtract (.pyName false "a")
    (.binary .subtract (.pyName false "b") (.pyName false "c"))

/- The Code of the canonical chained-comparison bytecode
`if a OP1 b OP2 c: ...` (wordcode, byte addresses 2*index):
LOAD_NAME a; LOAD_NAME b; DUP_TOP; ROT_THREE; COMPARE_OP c1;
POP_JUMP_IF_FALSE -> 20 (the POP_TOP cleanup); LOAD_NAME c; COMPARE_OP c2;
POP_JUMP_IF_FALSE -> 26; JUMP_FORWARD +4 (over the cleanup);
POP_TOP; JUMP_ABSOLUTE 26; LOAD_CONST (body); RETURN_VALUE. -/
def c4code : Code := ⟨[
  (0, LOAD_NAME, 0), (2, LOAD_NAME, 1), (4, DUP_TOP, 0), (6, ROT_THREE, 0),
  (8, COMPARE_OP, 0), (10, POP_JUMP_IF_FALSE, 20), (12, LOAD_NAME, 2),
  (14, COMPARE_OP, 0), (16, POP_JUMP_IF_FALSE, 26), (18, JUMP_FORWARD, 4),
  (20, POP_TOP, 0), (22, JUMP_ABSOLUTE, 26), (24, LOAD_CONST, 0),
  (26, RETURN_VALUE, 0)]⟩

/- The qualifying condition find_else actually tests for a branch at
index i: the branch is a POP_JUMP_IF_* whose resolved jump target has a
predecessor instruction in else_jump_opcodes, or lands on FOR_ITER. -/
def elseJumpQualifies (c : Code) (i : Nat) : Bool :=
  decide ((Address.mk c i).opcode ∈ pop_jump_if_opcodes) &&
    match c.addressB (Address.mk c i).arg with
    | .ok ja =>
      match ja.getitem (-1) with
      | some jp =>
          decide (jp.opcode ∈ else_jump_opcodes) || decide (ja.opcode = FOR_ITER)
      | none => false
    | .error _ => false

/- The qualifying rule the claim asserts: the target lands immediately
after an unconditional-jump/return/raise instruction, or on a
loop-iteration instruction.  Stated from the spec's words for comparison
with the implementation. -/
def elseJumpClaimQualifies (c : Code) (i : Nat) : Bool :=
  decide ((Address.mk c i).opcode ∈ pop_jump_if_opcodes) &&
    match c.addressB (Address.mk c i).arg with
    | .ok ja =>
      match ja.getitem (-1) with
      | some jp =>
          decide (jp.opcode ∈
            [JUMP_FORWARD, JUMP_ABSOLUTE, RETURN_VALUE, RAISE_VARARGS]) ||
            decide (ja.opcode = FOR_ITER)
      | none => false
    | .error _ => false

def c8cex : Code :=
  ⟨[(0, POP_JUMP_IF_FALSE, 6), (2, LOAD_CONST, 0), (4, POP_TOP, 0),
    (6, RETURN_VALUE, 0)]⟩

/- The pathological code for C1: two constant loads feeding a
JUMP_IF_TRUE_OR_POP whose absolute jump target is its own byte address
(wordcode bytes [100,0, 100,0, 112,4, 83,0], consts = (0,)). -/
def c1env : CodeEnv :=
  ⟨⟨[(0, LOAD_CONST, 0), (2, LOAD_CONST, 0), (4, JUMP_IF_TRUE_OR_POP, 4),
     (6, RETURN_VALUE, 0)]⟩, [0]⟩

def c1s0 : ExecSt := ⟨0, [], [], []⟩

/- The state reached after the two LOAD_CONST dispatches. -/
def c1s2 : ExecSt := ⟨2, [.pyConstInt 0, .pyConstInt 0], [], []⟩

/- The state after the first JUMP_IF_TRUE_OR_POP dispatch: the handler
returned its own address, so the cursor did not move. -/
def c1s3 : ExecSt :=
  ⟨2, [.booleanOr (.pyConstInt 0) (.pyConstInt 0) false], [], []⟩

/-!
## Theorems
-/

/-- C7: a Suite with an empty statement list renders the single placeholder
line `pass` at the current indent level (never no output); in particular an
if statement with an empty body renders its `pass` line under the header. -/
theorem C7_empty_suite_renders_pass :
    (∀ level step lines, Suite.displayS level step lines [] =
        lines ++ [spaces (step * level) ++ "pass"]) ∧
    (∀ cond : PyExpr, Stmt.display 0 4 [] false (.ifStmt cond [] []) =
        [spaces 0 ++ "if " ++ cond.pstr ++ ":", spaces 4 ++ "pass"]) := by
  constructor
  · intro level step lines
    simp [Suite.displayS]
  · intro cond
    simp [Stmt.display, Suite.displayS]

/-- C9: Code.__getitem__ yields an Address exactly for 0 <= index < length
and None otherwise (it never raises), and Address.__getitem__ delegates to
it at self.index + index, so navigating past either end yields None. -/
theorem C9_getitem_bounds :
    (∀ (c : Code) (i : Int), 0 ≤ i → i < (c.instr_seq.length : Int) →
        c.getitem i = some ⟨c, i.toNat⟩) ∧
    (∀ (c : Code) (i : Int), i < 0 ∨ (c.instr_seq.length : Int) ≤ i →
        c.getitem i = none) ∧
    (∀ (a : Address) (d : Int),
        a.getitem d = a.code.getitem ((a.index : Int) + d)) ∧
    (∀ (a : Address) (d : Int),
        (a.index : Int) + d < 0 ∨
          (a.code.instr_seq.length : Int) ≤ (a.index : Int) + d →
        a.getitem d = none) := by
  refine ⟨?_, ?_, ?_, ?_⟩
  · intro c i h0 hl
    simp [Code.getitem, h0, hl]
  · intro c i h
    simp only [Code.getitem, ite_eq_right_iff]
    intro hc
    omega
  · intro a d
    rfl
  · intro a d h
    simp only [Address.getitem, Code.getitem, ite_eq_right_iff]
    intro hc
    omega

theorem C9_getitem_bounds_witness :
    ((0 : Int) ≤ 0) ∧ ((0 : Int) < ((Code.mk [(0, 83, 0)]).instr_seq.length : Int)) ∧
    (Code.mk [(0, 83, 0)]).getitem 0 = some ⟨Code.mk [(0, 83, 0)], 0⟩ ∧
    (Code.mk [(0, 83, 0)]).getitem (-1) = none ∧
    (Address.mk (Code.mk [(0, 83, 0)]) 0).getitem 5 = none := by
  refine ⟨by decide, by decide, ?_, ?_, ?_⟩
  · exact C9_getitem_bounds.1 (Code.mk [(0, 83, 0)]) 0 (by decide) (by decide)
  · exact C9_getitem_bounds.2.1 (Code.mk [(0, 83, 0)]) (-1) (by decide)
  · exact C9_getitem_bounds.2.2.2 (Address.mk (Code.mk [(0, 83, 0)]) 0) 5 (by decide)

/-- C5 (amended): an operand-stack underflow detected by the POP_TOP
handler is surfaced as a diagnostic statement appended to the scope's
suite, not raised; a successful POP_TOP pops the value and writes it;
but an underflow reaching Stack.pop1 through an unguarded handler (e.g.
PRINT_EXPR) raises instead of producing a diagnostic. -/
theorem C5_pop_top_underflow_diagnostic :
    (∀ suite, popTopHandler ⟨[], suite⟩ =
        ⟨[], suite ++
          [.simple "\"\"\"unpyc3: decompilation error POP_TOP while empty stack\"\"\""]⟩) ∧
    (∀ st (v : PyExpr) suite, popTopHandler ⟨st ++ [v], suite⟩ =
        ⟨st, suite ++ [.simple v.pstr]⟩) := by
  constructor
  · intro suite
    rfl
  · intro st v suite
    simp [popTopHandler]

/-- C5 counterexample: the claim promises that operand-stack underflow is
never propagated as an exception, but Stack.pop1 raises on an empty stack
and the PRINT_EXPR handler pops without a guard, so an underflow there
propagates and aborts instead of appending a diagnostic. -/
theorem C5_counterexample_underflow_raises :
    Stack.pop1 Stack.empty = .error "Empty stack popped!" ∧
    printExprHandler ⟨[], []⟩ = .error "Empty stack popped!" := by
  constructor
  · rfl
  · rfl

/-- C6 counterexample: for `a - (b - c)` the right operand has precedence
equal to the node's, so `child < self` is false and the claim's rule keeps
it bare, but PyBinaryOp.wrap_right wraps on `<=`, so the rendering differs
from the claimed rule. -/
theorem C6_counterexample_right_operand :
    PyExpr.pstr c6cex = "a - (b - c)" ∧
    binStrClaimC6 .subtract (.pyName false "a")
      (.binary .subtract (.pyName false "b") (.pyName false "c")) = "a - b - c" ∧
    PyExpr.pstr c6cex ≠
      binStrClaimC6 .subtract (.pyName false "a")
        (.binary .subtract (.pyName false "b") (.pyName false "c")) := by
  refine ⟨rfl, rfl, by decide⟩

/-- C6 (amended): rendering wraps the left operand of a binary node and
the operand of a unary node on strict `<`, the right operand of a binary
node on `<=` (except PySubscript, whose right side is rendered bare), and
a ternary's condition and true branch on `<=` with only its false branch
on strict `<`. -/
theorem C6_wrap_rules :
    (∀ (k : BinKind) (l r : PyExpr), k ≠ BinKind.subscript →
        PyExpr.pstr (.binary k l r) =
          k.fmt (l.wrap (decide (l.prec < k.prec)))
            (r.wrap (decide (r.prec ≤ k.prec)))) ∧
    (∀ l r : PyExpr, PyExpr.pstr (.binary .subscript l r) =
        BinKind.fmt .subscript (l.wrap (decide (l.prec < BinKind.prec .subscript)))
          r.pstr) ∧
    (∀ (u : UnaryKind) (o : PyExpr), PyExpr.pstr (.unary u o) =
        u.pat ++ o.wrap (decide (o.prec < u.prec))) ∧
    (∀ c t f : PyExpr, PyExpr.pstr (.ifElse c t f) =
        t.wrap (decide (t.prec ≤ 2)) ++ " if " ++
          c.wrap (decide (c.prec ≤ 2)) ++ " else " ++
          f.wrap (decide (f.prec < 2))) := by
  refine ⟨?_, ?_, ?_, ?_⟩
  · intro k l r hk
    cases k <;> simp [PyExpr.pstr, PyExpr.wrap] <;> try rfl
    exact absurd rfl hk
  · intro l r
    simp [PyExpr.pstr, PyExpr.wrap]
  · intro u o
    simp [PyExpr.pstr, PyExpr.wrap]
  · intro c t f
    simp [PyExpr.pstr, PyExpr.wrap]

theorem C6_wrap_rules_witness :
    PyExpr.pstr (.binary .add (.pyName false "x") (.pyName false "y")) =
      BinKind.fmt .add
        ((PyExpr.pyName false "x").wrap
          (decide ((PyExpr.pyName false "x").prec < BinKind.prec .add)))
        ((PyExpr.pyName false "y").wrap
          (decide ((PyExpr.pyName false "y").prec ≤ BinKind.prec .add))) :=
  C6_wrap_rules.1 .add (.pyName false "x") (.pyName false "y") (by decide)

/-- C3: when the clause being merged already is a node of the chosen
operator, push_popjump flattens it into the existing chain
(obj_maker(obj_maker(cond, jcond.left), jcond.right)) instead of nesting
it as the right operand, and consequently folding the three branches of
`a and b and c` (same target, truthiness False) yields the left-nested
conjunction, rendered without parentheses. -/
theorem C3_boolean_fold_flattens :
    (∀ (cond l r : PyExpr) (ac acJ : Bool),
        mergeCond .mand cond (.booleanAnd l r acJ) ac =
          .booleanAnd (.booleanAnd cond l ac) r ac) ∧
    (∀ (cond l r : PyExpr) (ac acJ : Bool),
        mergeCond .mor cond (.booleanOr l r acJ) ac =
          .booleanOr (.booleanOr cond l ac) r ac) ∧
    (∀ a b c : String,
        popPopjump
          (pushPopjump 100 []
            (pushPopjump 100 []
              (pushPopjump 100 [] [] false 50 (.pyName false a) 1 POP_JUMP_IF_FALSE)
              false 50 (.pyName false b) 3 POP_JUMP_IF_FALSE)
            false 50 (.pyName false c) 5 POP_JUMP_IF_FALSE) =
        .ok (.booleanAnd (.booleanAnd (.pyName false a) (.pyName false b) false)
              (.pyName false c) false, [])) ∧
    (∀ a b c : String,
        PyExpr.pstr
          (.booleanAnd (.booleanAnd (.pyName false a) (.pyName false b) false)
            (.pyName false c) false) =
        a ++ " and " ++ b ++ " and " ++ c) := by
  refine ⟨fun _ _ _ _ _ => rfl, fun _ _ _ _ _ => rfl, fun a b c => rfl, ?_⟩
  intro a b c
  show ((("" ++ a) ++ " and " ++ ("" ++ b)) ++ " and " ++ ("" ++ c)) = _
  simp [String.empty_append, String.append_assoc]

/-- C4: on the canonical chained-comparison shape, proc_chained classifies
the branch after the DUP_TOP/ROT_THREE/COMPARE_OP triplet as the chain
start and the following consistent branch as the chain end (no inner or
ternary jumps), and the executor's start/end chained arms recover one
single PyCompare chain node — not a boolean-and of two comparisons —
rendering as `a OP1 b OP2 c`. -/
/- Popping a stack with last element v yields v and the rest. -/
theorem vpop_concat (st : List PyExpr) (v : PyExpr) : vpop (st ++ [v]) = .ok (v, st) := by
  unfold vpop
  rw [dif_neg (by simp)]
  simp

/- COMPARE_OP (non-exception-match) pops right then left and pushes the
three-element PyCompare. -/
theorem compareOpEff_spec (arg : Nat) (hn : ¬ arg = 10) (hlt : arg < cmp_op.length)
    (st : List PyExpr) (l r : PyExpr) :
    compareOpEff arg (st ++ [l] ++ [r]) =
      .ok (st ++ [.compare l (.cons (cmp_op.get ⟨arg, hlt⟩) r .nil)]) := by
  unfold compareOpEff
  rw [if_neg hn, vpop_concat]
  simp [vpop_concat, dif_pos hlt]

theorem C4_chained_comparison_single_chain :
    procChained c4code ⟨[], [], [], []⟩ 5 50 = .ok (⟨[5], [], [8], []⟩, 8) ∧
    (∀ (a b c : String) (c1 c2 : Nat), c1 < 12 → c1 ≠ 10 → c2 < 12 → c2 ≠ 10 →
        chainedRecover a b c c1 c2 =
          .ok (.compare (.pyName false a)
            (.cons (cmp_op.getD c1 "") (.pyName false b)
              (.cons (cmp_op.getD c2 "") (.pyName false c) .nil)))) ∧
    (∀ a b c op1 op2 : String,
        PyExpr.pstr (.compare (.pyName false a)
          (.cons op1 (.pyName false b) (.cons op2 (.pyName false c) .nil))) =
        a ++ " " ++ op1 ++ " " ++ b ++ " " ++ op2 ++ " " ++ c) := by
  refine ⟨by decide, ?_, ?_⟩
  · intro a b c c1 c2 h1 h1n h2 h2n
    have hc1 : c1 < cmp_op.length := by simp only [cmp_op, List.length]; omega
    have hc2 : c2 < cmp_op.length := by simp only [cmp_op, List.length]; omega
    have e1 : cmp_op.getD c1 "" = cmp_op.get ⟨c1, hc1⟩ := by
      simp [List.getD, List.getElem?_eq_getElem hc1]
    have e2 : cmp_op.getD c2 "" = cmp_op.get ⟨c2, hc2⟩ := by
      simp [List.getD, List.getElem?_eq_getElem hc2]
    have hcmp1 : compareOpEff c1
        [PyExpr.pyName false b, PyExpr.pyName false a, PyExpr.pyName false b] =
        .ok [PyExpr.pyName false b,
          .compare (.pyName false a)
            (.cons (cmp_op.get ⟨c1, hc1⟩) (.pyName false b) .nil)] := by
      have := compareOpEff_spec c1 h1n hc1 [PyExpr.pyName false b]
        (.pyName false a) (.pyName false b)
      simpa using this
    have hcmp2 : compareOpEff c2
        [PyExpr.pyName false b, PyExpr.pyName false c] =
        .ok [.compare (.pyName false b)
            (.cons (cmp_op.get ⟨c2, hc2⟩) (.pyName false c) .nil)] := by
      have := compareOpEff_spec c2 h2n hc2 []
        (.pyName false b) (.pyName false c)
      simpa using this
    simp [chainedRecover, vpush, e1, e2, hcmp1, hcmp2, popJumpChainedStart,
      popJumpChainedEnd, pushPopjump, ppjLoop, popPopjump, PyExpr.chain,
      CompRest.append, vpop, dupTopEff, rotThreeEff, JUMP_IF_TRUE_OR_POP,
      POP_JUMP_IF_FALSE]
    simp [List.getElem?_eq_getElem hc1, List.getElem?_eq_getElem hc2]
  · intro a b c op1 op2
    show ("" ++ a) ++ (" " ++ op1 ++ " " ++ ("" ++ b) ++
      (" " ++ op2 ++ " " ++ ("" ++ c) ++ "")) = _
    simp [String.empty_append, String.append_empty, String.append_assoc]

/- No entry produced by the >= 3.6 walker carries the EXTENDED_ARG
opcode: foldExt only succeeds once it has read past every widening
prefix. -/
theorem cwGo_no_extended (code : List Nat) :
    ∀ n i res, code.length - i ≤ n → cwGo code i = .ok res →
      ∀ e ∈ res, e.2.1 ≠ EXTENDED_ARG := by
  intro n
  induction n with
  | zero =>
    intro i res hb h e he
    rw [cwGo] at h
    split at h
    · exact absurd h (by intro hh; omega)
    · injection h with h2
      subst h2
      exact absurd he (by simp)
  | succ n ih =>
    intro i res hb h e he
    rw [cwGo] at h
    split at h
    case isTrue hl =>
      split at h
      case isTrue h1 =>
        split at h
        case h_1 => exact absurd h (by simp)
        case h_2 op oparg off hfe =>
          split at h
          · exact absurd h (by simp)
          case h_2 rest hrec =>
            injection h with h2
            subst h2
            have hoff : 2 ≤ off :=
              foldExt_off_le code code.length i 2 _ _ op oparg off (by omega) hfe
            rcases List.mem_cons.mp he with he1 | he2
            · subst he1
              exact foldExt_op_ne code code.length i 2 _ _ op oparg off
                (by omega) hfe
            · exact ih (i + off) rest (by omega) hrec e he2
      case isFalse => exact absurd h (by simp)
    · injection h with h2
      subst h2
      exact absurd he (by simp)

/-- C2 (amended): in the version >= 3.6 decode path every EXTENDED_ARG
prefix is folded into the following instruction's operand and the decoded
sequence never contains an EXTENDED_ARG entry of its own; the pre-3.6
decode path instead yields EXTENDED_ARG instructions as entries of their
own (accumulating their value into the next operand), which is why a
no-op EXTENDED_ARG handler exists. -/
theorem C2_walker_folds_extended_arg :
    ∀ (code : List Nat) res, codeWalker36 code = .ok res →
      ∀ e ∈ res, e.2.1 ≠ EXTENDED_ARG := by
  intro code res h
  exact cwGo_no_extended code code.length 0 res (by omega) h

unseal foldExt cwGo cwLegacyGo findElseGo

theorem C2_walker_folds_extended_arg_witness :
    codeWalker36 [144, 1, 100, 2] = .ok [(0, 100, 258)] ∧
    ((0, 100, 258) : Nat × Nat × Nat).2.1 ≠ EXTENDED_ARG := by
  have hrun : codeWalker36 [144, 1, 100, 2] = .ok [(0, 100, 258)] := by rfl
  exact ⟨hrun, C2_walker_folds_extended_arg [144, 1, 100, 2] [(0, 100, 258)]
    hrun (0, 100, 258) (by simp)⟩

/-- C2 counterexample: the pre-3.6 branch of code_walker yields the
widening prefix as an entry of its own — decoding
[EXTENDED_ARG 1; LOAD_CONST 2] exposes the (0, EXTENDED_ARG, 1) entry
(its value folded into the following operand 2 + 65536). -/
theorem C2_counterexample_legacy_exposes :
    codeWalkerLegacy [144, 1, 0, 100, 2, 0] =
      .ok [(0, 144, 1), (3, 100, 65538)] ∧
    144 = EXTENDED_ARG := by
  constructor
  · rfl
  · rfl

theorem C4_chained_comparison_single_chain_witness :
    chainedRecover "a" "b" "c" 0 1 =
      .ok (.compare (.pyName false "a")
        (.cons (cmp_op.getD 0 "") (.pyName false "b")
          (.cons (cmp_op.getD 1 "") (.pyName false "c") .nil))) :=
  C4_chained_comparison_single_chain.2.1 "a" "b" "c" 0 1 (by decide) (by decide)
    (by decide) (by decide)

/- Association-list dict lemmas. -/
theorem alLookup_alPut {α : Type} (d : List (Nat × α)) (k k2 : Nat) (v : α) :
    alLookup (alPut d k v) k2 = if k = k2 then some v else alLookup d k2 := by
  induction d with
  | nil => simp [alPut, alLookup]
  | cons p rest ih =>
    obtain ⟨k0, v0⟩ := p
    by_cases h : k0 = k
    · subst h
      simp only [alPut, if_pos rfl, alLookup]
      split_ifs <;> simp_all
    · simp only [alPut, if_neg h, alLookup, ih]
      split_ifs <;> simp_all

theorem alLookup_alDel {α : Type} (d : List (Nat × α)) (k k2 : Nat) :
    alLookup (alDel d k) k2 = if k = k2 then none else alLookup d k2 := by
  induction d with
  | nil => simp [alDel, alLookup]
  | cons p rest ih =>
    obtain ⟨k0, v0⟩ := p
    by_cases h : k0 = k
    · subst h
      simp only [alDel, List.filter] at ih ⊢
      simp only [decide_not, alLookup]
      split_ifs <;> simp_all [alLookup]
    · simp only [alDel, List.filter, decide_not] at ih ⊢
      simp only [alLookup]
      split_ifs <;> simp_all [alLookup]

theorem dictGet_put (d : List (Nat × Int)) (k k2 : Nat) (v : Int) :
    dictGet (alPut d k v) k2 = if k = k2 then v else dictGet d k2 := by
  simp only [dictGet, alLookup_alPut]
  split_ifs <;> rfl

theorem dictGet_del (d : List (Nat × Int)) (k k2 : Nat) :
    dictGet (alDel d k) k2 = if k = k2 then 0 else dictGet d k2 := by
  simp only [dictGet, alLookup_alDel]
  split_ifs <;> rfl

theorem setCount_stack (s : Stack) (k : Nat) (v : Int) :
    (s.setCount k v)._stack = s._stack := by
  unfold Stack.setCount
  split_ifs <;> rfl

theorem getCount_setCount (s : Stack) (k k2 : Nat) (v : Int) :
    (s.setCount k v).getCount k2 = if k = k2 then v else s.getCount k2 := by
  by_cases hv : v = 0
  · subst hv
    simp [Stack.setCount, Stack.getCount, dictGet_del]
  · simp [Stack.setCount, Stack.getCount, hv, dictGet_put]

theorem push1_stack (s : Stack) (v : Nat) :
    (s.push1 v)._stack = s._stack ++ [v] := by
  simp [Stack.push1, setCount_stack]

theorem push1_getCount (s : Stack) (v x : Nat) :
    (s.push1 v).getCount x =
      if v = x then s.getCount v + 1 else s.getCount x := by
  have : (s.push1 v).getCount x = (s.setCount v (s.getCount v + 1)).getCount x := rfl
  rw [this, getCount_setCount]

theorem count_append_singleton (l : List Nat) (v x : Nat) :
    (l ++ [v]).count x = l.count x + if v = x then 1 else 0 := by
  simp [List.count_append, List.count_singleton]

theorem push1_inv (s : Stack) (v : Nat) (h : s.inv) : (s.push1 v).inv := by
  intro x
  rw [push1_getCount, push1_stack, count_append_singleton]
  split_ifs with hvx
  · subst hvx
    rw [h]
    push_cast
    ring
  · rw [h]
    simp

theorem push_inv (args : List Nat) : ∀ s : Stack, s.inv → (s.push args).inv := by
  induction args with
  | nil => intro s h; exact h
  | cons v rest ih =>
    intro s h
    have : s.push (v :: rest) = (s.push1 v).push rest := rfl
    rw [this]
    exact ih _ (push1_inv s v h)

theorem pop1_spec (s : Stack) (hinv : s.inv) :
    ∀ v s2, s.pop1 = .ok (v, s2) →
      s2.inv ∧ s2.getCount v = s.getCount v - 1 ∧
        s2._stack = s._stack.dropLast := by
  intro v s2 h
  unfold Stack.pop1 at h
  split at h
  · exact absurd h (by simp)
  case isFalse hne =>
    injection h with h2
    injection h2 with hv hs
    subst hv
    subst hs
    have hgc : ∀ y, (⟨s._stack.dropLast, s._counts⟩ : Stack).getCount y =
        s.getCount y := fun _ => rfl
    have hsplit : ∀ x, s._stack.count x =
        s._stack.dropLast.count x +
          if s._stack.getLast hne = x then 1 else 0 := by
      intro x
      conv_lhs => rw [← List.dropLast_append_getLast hne]
      rw [count_append_singleton]
    refine ⟨?_, ?_, by rw [setCount_stack]⟩
    · intro x
      rw [getCount_setCount, setCount_stack]
      simp only [hgc]
      split_ifs with hvx
      · subst hvx
        have h2 := hsplit (s._stack.getLast hne)
        rw [if_pos rfl] at h2
        rw [hinv (s._stack.getLast hne), h2]
        push_cast
        ring
      · have h2 := hsplit x
        rw [if_neg hvx] at h2
        rw [hinv x, h2]
        push_cast
        ring
    · rw [getCount_setCount, if_pos rfl, hgc]

theorem popList_inv : ∀ (n : Nat) (s : Stack), s.inv →
    ∀ vs s2, s.popList n = .ok (vs, s2) → s2.inv := by
  intro n
  induction n with
  | zero =>
    intro s h vs s2 hp
    unfold Stack.popList at hp
    injection hp with h2
    injection h2 with hv hs
    subst hs
    exact h
  | succ n ih =>
    intro s h vs s2 hp
    unfold Stack.popList at hp
    split at hp
    · exact absurd hp (by simp)
    case h_2 v s1 heq =>
      split at hp
      · exact absurd hp (by simp)
      case h_2 vs1 s3 heq2 =>
        injection hp with h2
        injection h2 with hv hs
        subst hs
        exact ih s1 ((pop1_spec s h v s1 heq).1) vs1 s3 heq2

/-- C10: the Stack preserves the identity-count invariant (the recorded
count of every object id equals its number of occurrences in the value
list) across push, pop1 and pop; push appends and increments the pushed
value's count by one, pop1 removes the top and decrements its count by
one, membership holds exactly when the count is positive (equivalently,
under the invariant, when the value is in the list), and popping an empty
stack raises instead of returning a value. -/
theorem C10_stack_identity_counts :
    Stack.empty.inv ∧
    (∀ (s : Stack) (args : List Nat), s.inv → (s.push args).inv) ∧
    (∀ (s : Stack) (v : Nat), (s.push [v]).getCount v = s.getCount v + 1 ∧
        (s.push [v])._stack = s._stack ++ [v]) ∧
    (∀ s : Stack, s.inv → ∀ v s2, s.pop1 = .ok (v, s2) →
        s2.inv ∧ s2.getCount v = s.getCount v - 1 ∧
          s2._stack = s._stack.dropLast) ∧
    (∀ (s : Stack) (v : Nat), s.contains v = true ↔ 0 < s.getCount v) ∧
    (∀ (s : Stack) (v : Nat), s.inv → (s.contains v = true ↔ v ∈ s._stack)) ∧
    (∀ s : Stack, s._stack = [] → s.pop1 = .error "Empty stack popped!") ∧
    (∀ (s : Stack) (n : Nat), s.inv → ∀ vs s2, s.popN n = .ok (vs, s2) →
        s2.inv) := by
  refine ⟨?_, ?_, ?_, ?_, ?_, ?_, ?_, ?_⟩
  · intro x
    rfl
  · intro s args h
    exact push_inv args s h
  · intro s v
    constructor
    · have : (s.push [v]).getCount v = (s.push1 v).getCount v := rfl
      rw [this, push1_getCount, if_pos rfl]
    · have : (s.push [v])._stack = (s.push1 v)._stack := rfl
      rw [this, push1_stack]
  · exact pop1_spec
  · intro s v
    simp [Stack.contains]
  · intro s v h
    simp only [Stack.contains, decide_eq_true_eq]
    rw [h v]
    constructor
    · intro hp
      exact List.count_pos_iff.mp (by exact_mod_cast hp)
    · intro hm
      exact_mod_cast List.count_pos_iff.mpr hm
  · intro s h
    unfold Stack.pop1
    rw [dif_pos h]
  · intro s n h vs s2 hp
    unfold Stack.popN at hp
    split at hp
    · exact absurd hp (by simp)
    case h_2 vs1 s3 heq =>
      injection hp with h2
      injection h2 with hv hs
      subst hs
      exact popList_inv n s h vs1 s3 heq

theorem C10_stack_identity_counts_witness :
    (Stack.empty.push [5, 5, 7]).inv ∧
    (Stack.empty.push [5, 5, 7]).getCount 5 = 2 ∧
    (Stack.empty.push [5, 5, 7]).contains 5 = true ∧
    Stack.pop1 Stack.empty = .error "Empty stack popped!" := by
  refine ⟨C10_stack_identity_counts.2.1 Stack.empty [5, 5, 7]
    C10_stack_identity_counts.1, by decide, ?_, ?_⟩
  · exact (C10_stack_identity_counts.2.2.2.2.1 (Stack.empty.push [5, 5, 7]) 5).mpr
      (by decide)
  · exact C10_stack_identity_counts.2.2.2.2.2.2.1 Stack.empty rfl

/- Membership facts for the dict. -/
theorem mem_alPut {α : Type} (d : List (Nat × α)) (k : Nat) (v : α) (p : Nat × α) :
    p ∈ alPut d k v → p = (k, v) ∨ p ∈ d := by
  induction d with
  | nil =>
    intro h
    simp [alPut] at h
    left
    simp [h]
  | cons q rest ih =>
    obtain ⟨k0, v0⟩ := q
    intro h
    by_cases hk : k0 = k
    · subst hk
      simp only [alPut, if_pos rfl] at h
      rcases List.mem_cons.mp h with h1 | h2
      · left; exact h1
      · right; exact List.mem_cons_of_mem _ h2
    · simp only [alPut, if_neg hk] at h
      rcases List.mem_cons.mp h with h1 | h2
      · right; exact h1 ▸ List.mem_cons_self _ _
      · rcases ih h2 with h3 | h4
        · left; exact h3
        · right; exact List.mem_cons_of_mem _ h4

theorem alLookup_mem {α : Type} (d : List (Nat × α)) (k : Nat) (v : α) :
    alLookup d k = some v → (k, v) ∈ d := by
  induction d with
  | nil => intro h; simp [alLookup] at h
  | cons q rest ih =>
    obtain ⟨k0, v0⟩ := q
    intro h
    simp only [alLookup] at h
    split_ifs at h with hk
    · injection h with hv
      subst hk
      subst hv
      exact List.mem_cons_self _ _
    · exact List.mem_cons_of_mem _ (ih h)

/-- C8 counterexample: the branch at index 0 jumps to the instruction
after a POP_TOP — not an unconditional-jump/return/raise and not a
FOR_ITER landing — yet find_else puts it into the else-jump set, because
else_jump_opcodes also contains POP_TOP (and SETUP_LOOP). -/
theorem C8_counterexample_pop_top_target :
    findElse c8cex = .ok [0] ∧ elseJumpClaimQualifies c8cex 0 = false := by
  constructor
  · rfl
  · rfl

/- One find_else step only records qualifying branches: the pop-jump arm
inserts the branch itself after testing exactly the qualifying condition,
and the JUMP_ABSOLUTE / JUMP_FORWARD alias arms only copy values already
present. -/
theorem findElseStep_sound (c : Code) (jumps j2 : List (Nat × Nat)) (i : Nat)
    (hj : ∀ p ∈ jumps, elseJumpQualifies c p.2 = true)
    (h : findElseStep c jumps i = .ok j2) :
    ∀ p ∈ j2, elseJumpQualifies c p.2 = true := by
  unfold findElseStep at h
  dsimp only at h
  split_ifs at h with h1 h2 h3
  · -- pop-jump arm
    split at h
    next => exact absurd h (by simp)
    next ja heq1 =>
      split at h
      next => exact absurd h (by simp)
      next jp heq2 =>
        split_ifs at h with hcond
        · injection h with hj2
          subst hj2
          intro p hp
          rcases mem_alPut _ _ _ _ hp with hp1 | hp2
          · subst hp1
            simp only [elseJumpQualifies, heq1, heq2]
            rcases hcond with hc | hc <;> simp [h1, hc]
          · exact hj p hp2
        · injection h with hj2
          subst hj2
          exact hj
  · -- JUMP_ABSOLUTE alias arm
    split at h
    next => exact absurd h (by simp)
    next ja heq1 =>
      split at h
      next v heqv =>
        injection h with hj2
        subst hj2
        intro p hp
        rcases mem_alPut _ _ _ _ hp with hp1 | hp2
        · subst hp1
          exact hj (ja.index, v) (alLookup_mem jumps ja.index v heqv)
        · exact hj p hp2
      next =>
        injection h with hj2
        subst hj2
        exact hj
  · -- JUMP_FORWARD alias arm
    split at h
    next => exact absurd h (by simp)
    next a1 heq0 =>
      split at h
      next => exact absurd h (by simp)
      next ja heq1 =>
        split at h
        next v heqv =>
          injection h with hj2
          subst hj2
          intro p hp
          rcases mem_alPut _ _ _ _ hp with hp1 | hp2
          · subst hp1
            exact hj (ja.index, v) (alLookup_mem jumps ja.index v heqv)
          · exact hj p hp2
        next =>
          injection h with hj2
          subst hj2
          exact hj
  · injection h with hj2
    subst hj2
    exact hj

theorem findElseGo_sound (c : Code) : ∀ n i jumps jf,
    c.instr_seq.length - i ≤ n →
    (∀ p ∈ jumps, elseJumpQualifies c p.2 = true) →
    findElseGo c i jumps = .ok jf →
    ∀ p ∈ jf, elseJumpQualifies c p.2 = true := by
  intro n
  induction n with
  | zero =>
    intro i jumps jf hb hj h
    rw [findElseGo] at h
    split at h
    · exact absurd (by omega : ¬ i < c.instr_seq.length) (by simp_all)
    · injection h with hj2
      subst hj2
      exact hj
  | succ n ih =>
    intro i jumps jf hb hj h
    rw [findElseGo] at h
    split at h
    next hl =>
      split at h
      next => exact absurd h (by simp)
      next j2 hstep =>
        exact ih (i + 1) j2 jf (by omega) (findElseStep_sound c jumps j2 i hj hstep) h
    next =>
      injection h with hj2
      subst hj2
      exact hj

/- A recorded entry jumps[j] = v survives a later step, provided the step
is not a pop-jump resolving to target j (which would overwrite the key)
and the instruction at index j is not itself an unconditional jump (whose
alias entry is keyed by its own index j). -/
theorem findElseStep_preserve (c : Code) (jumps j2 : List (Nat × Nat))
    (m j v : Nat)
    (hl : alLookup jumps j = some v)
    (hm : ∀ ja : Address, (Address.mk c m).opcode ∈ pop_jump_if_opcodes →
        c.addressB (Address.mk c m).arg = .ok ja → ja.index ≠ j)
    (hja : (Address.mk c j).opcode ≠ JUMP_ABSOLUTE)
    (hjf : (Address.mk c j).opcode ≠ JUMP_FORWARD)
    (h : findElseStep c jumps m = .ok j2) :
    alLookup j2 j = some v := by
  unfold findElseStep at h
  dsimp only at h
  split_ifs at h with h1 h2 h3
  · split at h
    next => exact absurd h (by simp)
    next ja heq1 =>
      split at h
      next => exact absurd h (by simp)
      next jp heq2 =>
        split_ifs at h with hcond
        · injection h with hj2
          subst hj2
          rw [alLookup_alPut, if_neg (hm ja h1 heq1), hl]
        · injection h with hj2
          subst hj2
          exact hl
  · split at h
    next => exact absurd h (by simp)
    next ja heq1 =>
      split at h
      next w heqv =>
        injection h with hj2
        subst hj2
        have hmj : m ≠ j := by
          intro hh
          subst hh
          exact hja h2
        rw [alLookup_alPut, if_neg hmj, hl]
      next =>
        injection h with hj2
        subst hj2
        exact hl
  · split at h
    next => exact absurd h (by simp)
    next a1 heq0 =>
      split at h
      next => exact absurd h (by simp)
      next ja heq1 =>
        split at h
        next w heqv =>
          injection h with hj2
          subst hj2
          have hmj : m ≠ j := by
            intro hh
            subst hh
            exact hjf h3
          rw [alLookup_alPut, if_neg hmj, hl]
        next =>
          injection h with hj2
          subst hj2
          exact hl
  · injection h with hj2
    subst hj2
    exact hl

theorem findElseGo_preserve (c : Code) (j v : Nat)
    (hja : (Address.mk c j).opcode ≠ JUMP_ABSOLUTE)
    (hjf : (Address.mk c j).opcode ≠ JUMP_FORWARD) :
    ∀ n k jumps jf, c.instr_seq.length - k ≤ n →
      alLookup jumps j = some v →
      (∀ m, k ≤ m → ∀ ja : Address,
          (Address.mk c m).opcode ∈ pop_jump_if_opcodes →
          c.addressB (Address.mk c m).arg = .ok ja → ja.index ≠ j) →
      findElseGo c k jumps = .ok jf → alLookup jf j = some v := by
  intro n
  induction n with
  | zero =>
    intro k jumps jf hb hl hafter h
    rw [findElseGo] at h
    split at h
    next hk => exact absurd hk (by omega)
    next =>
      injection h with hj2
      subst hj2
      exact hl
  | succ n ih =>
    intro k jumps jf hb hl hafter h
    rw [findElseGo] at h
    split at h
    next hk =>
      split at h
      next => exact absurd h (by simp)
      next j2 hstep =>
        exact ih (k + 1) j2 jf (by omega)
          (findElseStep_preserve c jumps j2 k j v hl
            (hafter k (le_refl k)) hja hjf hstep)
          (fun m hm => hafter m (by omega)) h
    next =>
      injection h with hj2
      subst hj2
      exact hl

theorem findElseGo_complete (c : Code) (i j : Nat) (jp : Address)
    (hilen : i < c.instr_seq.length)
    (hop : (Address.mk c i).opcode ∈ pop_jump_if_opcodes)
    (haddr : c.addressB (Address.mk c i).arg = .ok ⟨c, j⟩)
    (hgt : (Address.mk c j).getitem (-1) = some jp)
    (hcond : jp.opcode ∈ else_jump_opcodes ∨ (Address.mk c j).opcode = FOR_ITER)
    (hafter : ∀ m, i < m → ∀ ja : Address,
        (Address.mk c m).opcode ∈ pop_jump_if_opcodes →
        c.addressB (Address.mk c m).arg = .ok ja → ja.index ≠ j)
    (hja : (Address.mk c j).opcode ≠ JUMP_ABSOLUTE)
    (hjf : (Address.mk c j).opcode ≠ JUMP_FORWARD) :
    ∀ n a jumps jf, c.instr_seq.length - a ≤ n → a ≤ i →
      findElseGo c a jumps = .ok jf → alLookup jf j = some i := by
  intro n
  induction n with
  | zero =>
    intro a jumps jf hb hai h
    omega
  | succ n ih =>
    intro a jumps jf hb hai h
    rw [findElseGo] at h
    split at h
    next hk =>
      split at h
      next => exact absurd h (by simp)
      next j2 hstep =>
        by_cases heq : a = i
        · subst heq
          have hj2 : j2 = alPut jumps j a := by
            unfold findElseStep at hstep
            dsimp only at hstep
            rw [if_pos hop, haddr] at hstep
            simp only [hgt] at hstep
            rw [if_pos hcond] at hstep
            injection hstep with hh
            exact hh.symm
          subst hj2
          exact findElseGo_preserve c j a hja hjf n (a + 1) _ jf (by omega)
            (by rw [alLookup_alPut, if_pos rfl])
            (fun m hm => hafter m (by omega)) h
        · exact ih (a + 1) j2 jf (by omega) (by omega) h
    next => omega

/-- C8 (amended): the else-jump set contains only conditional branches
whose jump target lands immediately after an instruction in
else_jump_opcodes (JUMP_FORWARD, RETURN_VALUE, JUMP_ABSOLUTE, SETUP_LOOP,
RAISE_VARARGS, POP_TOP) or lands on a FOR_ITER; and every such branch is
in the set provided no later branch resolves to the same target (the dict
keeps the last recording per target) and the target instruction is not
itself an unconditional jump (whose alias entry would overwrite the
record). -/
theorem C8_find_else_set :
    (∀ (c : Code) l, findElse c = .ok l →
        ∀ v ∈ l, elseJumpQualifies c v = true) ∧
    (∀ (c : Code) l (i j : Nat) (jp : Address), findElse c = .ok l →
        i < c.instr_seq.length →
        (Address.mk c i).opcode ∈ pop_jump_if_opcodes →
        c.addressB (Address.mk c i).arg = .ok ⟨c, j⟩ →
        (Address.mk c j).getitem (-1) = some jp →
        (jp.opcode ∈ else_jump_opcodes ∨ (Address.mk c j).opcode = FOR_ITER) →
        (∀ m, i < m → ∀ ja : Address,
            (Address.mk c m).opcode ∈ pop_jump_if_opcodes →
            c.addressB (Address.mk c m).arg = .ok ja → ja.index ≠ j) →
        (Address.mk c j).opcode ≠ JUMP_ABSOLUTE →
        (Address.mk c j).opcode ≠ JUMP_FORWARD →
        i ∈ l) := by
  constructor
  · intro c l h v hv
    unfold findElse at h
    split at h
    next => exact absurd h (by simp)
    next jf hgo =>
      injection h with hl
      subst hl
      obtain ⟨p, hp, hpv⟩ := List.mem_map.mp hv
      subst hpv
      exact findElseGo_sound c c.instr_seq.length 0 [] jf (by omega)
        (by intro p hp; exact absurd hp (by simp)) hgo p hp
  · intro c l i j jp h hilen hop haddr hgt hcond hafter hja hjf
    unfold findElse at h
    split at h
    next => exact absurd h (by simp)
    next jf hgo =>
      injection h with hl
      subst hl
      have hlk : alLookup jf j = some i :=
        findElseGo_complete c i j jp hilen hop haddr hgt hcond hafter hja hjf
          c.instr_seq.length 0 [] jf (by omega) (by omega) hgo
      exact List.mem_map.mpr ⟨(j, i), alLookup_mem jf j i hlk, rfl⟩

theorem C8_find_else_set_witness :
    findElse c8cex = .ok [0] ∧ (0 : Nat) ∈ [0] ∧
    elseJumpQualifies c8cex 0 = true := by
  have hrun : findElse c8cex = .ok [0] := by rfl
  refine ⟨hrun, ?_, ?_⟩
  · refine C8_find_else_set.2 c8cex [0] 0 3 ⟨c8cex, 2⟩ hrun (by decide)
      (by decide) (by rfl) (by rfl) (by left; decide) ?_ (by decide) (by decide)
    intro m hm ja hpj hadr
    have h4 : 4 ≤ m ∨ m = 1 ∨ m = 2 ∨ m = 3 := by omega
    exfalso
    rcases h4 with h4 | h4 | h4 | h4
    · have : (Address.mk c8cex m).opcode = 0 := by
        simp only [Address.opcode, Address.entry, c8cex]
        rw [List.getD_eq_default]
        simp [c8cex]
        omega
      rw [this] at hpj
      exact absurd hpj (by decide)
    · subst h4
      exact absurd hpj (by decide)
    · subst h4
      exact absurd hpj (by decide)
    · subst h4
      exact absurd hpj (by decide)
  · exact C8_find_else_set.1 c8cex [0] hrun 0 (by decide)

/-- C1 counterexample: dispatching the self-targeting
JUMP_IF_TRUE_OR_POP returns the same cursor Address while the run loop's
guard still holds (the cursor stays in range and end_addr is None), so
that dispatch neither strictly increases the cursor nor terminates
execution; the next dispatch of the same instruction then aborts with an
uncaught stack-underflow exception — not the placeholder-diagnostic
fallback (the suite stays empty). -/
theorem C1_counterexample_no_progress :
    codeWalker36 [100, 0, 100, 0, 112, 4, 83, 0] = .ok c1env.code.instr_seq ∧
    c1stepN c1env 2 c1s0 = .cont c1s2 ∧
    c1step c1env c1s2 = .cont c1s3 ∧
    c1s3.cursor = c1s2.cursor ∧
    c1s2.cursor < c1env.code.instr_seq.length ∧
    c1step c1env c1s3 = .errored "Empty stack popped!" ∧
    c1s3.suite = [] := by
  exact ⟨by rfl, by rfl, by rfl, rfl, by decide, by rfl, rfl⟩

/-- C1 (amended): forward progress holds for handlers that return None —
a LOAD_CONST dispatch always advances the cursor to the next
instruction — but is not guaranteed on every dispatch path: a
JUMP_IF_TRUE_OR_POP whose jump target is its own address returns a
non-increasing cursor while the loop continues, and the pathological
pattern ends in an uncaught 'Empty stack popped!' exception with no
placeholder diagnostic in the suite, rather than looping indefinitely or
degrading to the fallback. -/
theorem C1_run_progress :
    (∀ st st2 : ExecSt,
        (Address.mk c1env.code st.cursor).opcode = LOAD_CONST →
        c1step c1env st = .cont st2 → st2.cursor = st.cursor + 1) ∧
    (c1step c1env c1s2 = .cont c1s3 ∧ c1s3.cursor = c1s2.cursor) ∧
    (c1stepN c1env 4 c1s0 = .errored "Empty stack popped!" ∧
      c1s3.suite = []) := by
  refine ⟨?_, ⟨by rfl, rfl⟩, by rfl, rfl⟩
  intro st st2 hop hstep
  unfold c1step at hstep
  dsimp only at hstep
  rw [if_pos hop] at hstep
  split at hstep
  next hlt =>
    split at hstep
    next => exact absurd hstep (by simp)
    next v heq =>
      injection hstep with hh
      rw [← hh]
  next => exact absurd hstep (by simp)

theorem C1_run_progress_witness :
    (Address.mk c1env.code c1s0.cursor).opcode = LOAD_CONST ∧
    c1step c1env c1s0 = .cont ⟨1, [.pyConstInt 0], [], []⟩ ∧
    (⟨1, [.pyConstInt 0], [], []⟩ : ExecSt).cursor = c1s0.cursor + 1 := by
  refine ⟨by rfl, by rfl, ?_⟩
  exact C1_run_progress.1 c1s0 ⟨1, [.pyConstInt 0], [], []⟩ (by rfl) (by rfl)

end Unpyc
